import Mathlib

/-!
Verification of the ssmprov repository: a shallow embedding of the
token-generation loop (`gen_until_stop`), the transcript tool
(`tools.py`), and the TCP runner dispatch loops of `RWKV7.py` and
`Falcon_Mamba_Instruct.py`, together with theorems settling the claims
about them.

Python strings are modelled as lists of characters; the opaque model
runtime (llama.cpp) is modelled by oracle parameters: the sequence of
sampled (token id, decoded piece) pairs, an abstract tokenizer, and an
abstract recurrent-state type.
-/

namespace SSM

/-- Python strings are modelled as lists of Unicode characters. -/
abbrev Str := List Char

/-- Coerce a Lean string literal to the model's string type. -/
def str (s : String) : Str := s.data

/-! ## Stop markers (RWKV7.py lines 33-39, Falcon_Mamba_Instruct.py lines 48-52) -/

/-- OPENER marker, Python `mark1`. -/
def mark1 : Str := str "\n~~~("

/-- FULL_CLOSE marker, Python `mark2`. -/
def mark2 : Str := str ")~~~\n\n"

/-- PARTIAL_END marker, Python `mark3`. -/
def mark3 : Str := str "end)~~"

/-- Forced-completion target after the opener, Python `FORCE_AFTER`. -/
def FORCE_AFTER : Str := str "end)~~~\n\n"

/-- Forced-completion target after the partial end, Python `FORCE_AFTER3`. -/
def FORCE_AFTER3 : Str := str "~\n\n"

/-- The canonical fence separating transcript turns (tools.py `FENCE`). -/
def FENCE : Str := str "\n\n~~~(end)~~~\n\n"

/-! ## Substring search primitives (Python `in` and `str.rfind`) -/

/-- `occursAt pat s j` holds when `pat` occurs in `s` starting at index `j`. -/
def occursAt (pat s : Str) (j : Nat) : Bool := pat.isPrefixOf (s.drop j)

/-- Python `s.rfind(pat)`: index of the rightmost occurrence of `pat` in `s`,
`none` when absent (Python returns -1). -/
def rfind (s pat : Str) : Option Nat :=
  ((List.range (s.length + 1)).filter (fun j => occursAt pat s j)).getLast?

/-- Python `pat in s`. -/
def containsSub (s pat : Str) : Bool := (rfind s pat).isSome

/-- Python `s.rfind(pat, a, b)`: rightmost occurrence of `pat` lying inside
the slice `s[a:b]`. -/
def rfindRange (s pat : Str) (a b : Nat) : Option Nat :=
  ((List.range (s.length + 1)).filter
    (fun j => decide (a ≤ j) && decide (j + pat.length ≤ b) && occursAt pat s j)).getLast?

/-- Length of the longest common prefix of two strings: the Python loop
`while m < len(after) and m < len(target) and after[m] == target[m]: m += 1`. -/
def lcp : Str → Str → Nat
  | a :: as, b :: bs => if a = b then lcp as bs + 1 else 0
  | _, _ => 0

/-! ## The generation engine (`gen_until_stop`, RWKV7.py lines 146-234;
the loop in Falcon_Mamba_Instruct.py lines 144-211 is character-identical,
with `min_p` passed to the sampler, which the sampling oracle absorbs).

The sampler is modelled as the list of `(tok_id, decoded piece)` pairs it
would produce in order; `llm.tokenize` is an oracle `Str → List Nat`; the
recurrent-state side effect is modelled by recording the exact list of
token ids fed to `llm.eval`, in order. -/

/-- Generation-loop state: the accumulated reply `text` and the token ids
that have been evaluated into the model state so far. -/
structure GenState where
  text : Str
  evaled : List Nat
deriving DecidableEq, Repr

/-- Why `gen_until_stop` stopped. `exhausted` marks runs whose sample
oracle ran out (the real loop would keep sampling). -/
inductive ExitCause where
  | eos | budget | fullClose | partialEnd | opener | exhausted
deriving DecidableEq, Repr

/-- Result of one iteration of the `while True` loop. -/
inductive StepRes where
  | stop (s : GenState) (c : ExitCause)
  | next (s : GenState)
deriving DecidableEq, Repr

/-- One iteration of the `gen_until_stop` loop body, given the sampled
token id and its decoded piece. -/
def genStep (tokenizeFn : Str → List Nat) (max_chars : Nat) (s : GenState)
    (tok_id : Nat) (piece : Str) : StepRes :=
  if tok_id = 0 then .stop s .eos
  else
    let text := s.text ++ piece
    if max_chars < text.length then .stop ⟨text, s.evaled⟩ .budget
    else if containsSub text mark2 then .stop ⟨text, s.evaled⟩ .fullClose
    else
      match rfind text mark3 with
      | some j =>
          let evaled := s.evaled ++ [tok_id]
          let after := text.drop (j + mark3.length)
          let m := lcp after FORCE_AFTER3
          let missing := FORCE_AFTER3.drop m
          if missing.isEmpty then .stop ⟨text, evaled⟩ .partialEnd
          else
            let toks := tokenizeFn missing
            .stop ⟨text ++ missing, if toks.isEmpty then evaled else evaled ++ toks⟩ .partialEnd
      | none =>
        match rfind text mark1 with
        | some i =>
            let evaled := s.evaled ++ [tok_id]
            let after := text.drop (i + mark1.length)
            let m := lcp after FORCE_AFTER
            let missing := FORCE_AFTER.drop m
            if missing.isEmpty then .stop ⟨text, evaled⟩ .opener
            else
              let toks := tokenizeFn missing
              .stop ⟨text ++ missing, if toks.isEmpty then evaled else evaled ++ toks⟩ .opener
        | none => .next ⟨text, s.evaled ++ [tok_id]⟩

/-- The `while True` loop of `gen_until_stop`, driven by the sample oracle. -/
def genRun (tokenizeFn : Str → List Nat) (max_chars : Nat) :
    GenState → List (Nat × Str) → GenState × ExitCause
  | s, [] => (s, .exhausted)
  | s, (t, p) :: rest =>
      match genStep tokenizeFn max_chars s t p with
      | .stop s' c => (s', c)
      | .next s' => genRun tokenizeFn max_chars s' rest

/-- `gen_until_stop` itself: run the loop from the empty reply. -/
def gen_until_stop (tokenizeFn : Str → List Nat) (max_chars : Nat)
    (samples : List (Nat × Str)) : GenState × ExitCause :=
  genRun tokenizeFn max_chars ⟨[], []⟩ samples

/-! ## Claim-side predicates for C1 -/

/-- Number of occurrences of the canonical fence in a reply. -/
def fenceCount (t : Str) : Nat :=
  ((List.range (t.length + 1)).filter (fun j => occursAt FENCE t j)).length

/-- The reply ends with the canonical fence. -/
def endsWithFence (t : Str) : Bool := FENCE.isSuffixOf t

/-- None of the three stop markers occurs in the text. -/
def NoMarks (t : Str) : Prop :=
  containsSub t mark1 = false ∧ containsSub t mark2 = false ∧ containsSub t mark3 = false

instance (t : Str) : Decidable (NoMarks t) := by unfold NoMarks; infer_instance

/-! ## Substring-search lemmas -/

lemma occursAt_append (pat t u : Str) (j : Nat) (h : occursAt pat t j = true) :
    occursAt pat (t ++ u) j = true := by
  rw [occursAt, List.isPrefixOf_iff_prefix] at h ⊢
  rcases le_or_lt j t.length with hle | hlt
  · rw [List.drop_append_eq_append_drop, Nat.sub_eq_zero_of_le hle, List.drop_zero]
    exact h.trans (List.prefix_append _ _)
  · have hnil : t.drop j = [] := List.drop_eq_nil_iff.2 (le_of_lt hlt)
    rw [hnil, List.prefix_nil] at h
    rw [h]
    exact List.nil_prefix

lemma containsSub_of_occursAt {t pat : Str} {j : Nat} (h : occursAt pat t j = true) :
    containsSub t pat = true := by
  have hmem : ∃ i, i ∈ (List.range (t.length + 1)).filter (fun i => occursAt pat t i) := by
    by_cases hp : pat = []
    · refine ⟨0, List.mem_filter.2 ⟨List.mem_range.2 (Nat.succ_pos _), ?_⟩⟩
      subst hp
      rw [occursAt, List.isPrefixOf_iff_prefix]
      exact List.nil_prefix
    · have hj : j < t.length + 1 := by
        by_contra hc
        push_neg at hc
        have hnil : t.drop j = [] := List.drop_eq_nil_iff.2 (by omega)
        rw [occursAt, hnil, List.isPrefixOf_iff_prefix, List.prefix_nil] at h
        exact hp h
      exact ⟨j, List.mem_filter.2 ⟨List.mem_range.2 hj, h⟩⟩
  obtain ⟨i, hi⟩ := hmem
  rw [containsSub, rfind, Option.isSome_iff_ne_none]
  intro hnone
  rw [List.getLast?_eq_none_iff] at hnone
  rw [hnone] at hi
  exact absurd hi (List.not_mem_nil i)

lemma occursAt_of_rfind {t pat : Str} {j : Nat} (h : rfind t pat = some j) :
    occursAt pat t j = true := by
  rw [rfind] at h
  exact (List.mem_filter.1 (List.mem_of_mem_getLast? h)).2

lemma containsSub_append {t u pat : Str} (h : containsSub t pat = true) :
    containsSub (t ++ u) pat = true := by
  rw [containsSub, Option.isSome_iff_exists] at h
  obtain ⟨j, hj⟩ := h
  exact containsSub_of_occursAt (occursAt_append _ _ _ _ (occursAt_of_rfind hj))

lemma containsSub_mark2_of_fence {t : Str} (h : containsSub t FENCE = true) :
    containsSub t mark2 = true := by
  rw [containsSub, Option.isSome_iff_exists] at h
  obtain ⟨j, hj⟩ := h
  have hocc := occursAt_of_rfind hj
  apply @containsSub_of_occursAt t mark2 (j + 9)
  rw [occursAt, List.isPrefixOf_iff_prefix] at hocc ⊢
  obtain ⟨r, hr⟩ := hocc
  have hdd : t.drop (j + 9) = List.drop 9 (t.drop j) := by rw [List.drop_drop]
  rw [hdd, ← hr, List.drop_append_eq_append_drop]
  have h9 : FENCE.drop 9 = mark2 := by decide
  rw [h9]
  exact ⟨List.drop (9 - FENCE.length) r, rfl⟩

lemma fence_false_of_noMarks {t : Str} (h : NoMarks t) : containsSub t FENCE = false := by
  cases hf : containsSub t FENCE with
  | false => rfl
  | true =>
      have := containsSub_mark2_of_fence hf
      rw [h.2.1] at this
      exact absurd this (by simp)

/-! ## Exit characterization of the generation loop -/

/-- Exit characterization: what `gen_until_stop` guarantees about its
returned text, by stop cause. -/
def ExitOk (M : Nat) (r : GenState × ExitCause) : Prop :=
  ((r.2 = .eos ∨ r.2 = .exhausted) →
      NoMarks r.1.text ∧ containsSub r.1.text FENCE = false) ∧
  (r.2 = .budget → M < r.1.text.length) ∧
  (r.2 = .fullClose → containsSub r.1.text mark2 = true) ∧
  (r.2 = .partialEnd → containsSub r.1.text mark3 = true) ∧
  (r.2 = .opener → containsSub r.1.text mark1 = true)

/-! ### Branch equations for `genStep` -/

lemma genStep_eos (tk : Str → List Nat) (M : Nat) (s : GenState) (piece : Str) :
    genStep tk M s 0 piece = .stop s .eos := by
  unfold genStep
  rw [if_pos rfl]

lemma genStep_budget {tok : Nat} (h0 : tok ≠ 0) (tk : Str → List Nat) (M : Nat)
    (s : GenState) (piece : Str) (h : M < (s.text ++ piece).length) :
    genStep tk M s tok piece = .stop ⟨s.text ++ piece, s.evaled⟩ .budget := by
  unfold genStep
  simp only [if_neg h0, if_pos h]

lemma genStep_fullClose {tok : Nat} (h0 : tok ≠ 0) (tk : Str → List Nat) (M : Nat)
    (s : GenState) (piece : Str) (hlen : ¬ M < (s.text ++ piece).length)
    (hm2 : containsSub (s.text ++ piece) mark2 = true) :
    genStep tk M s tok piece = .stop ⟨s.text ++ piece, s.evaled⟩ .fullClose := by
  unfold genStep
  simp only [if_neg h0, if_neg hlen, if_pos hm2]

lemma genStep_partialEnd {tok : Nat} (h0 : tok ≠ 0) (tk : Str → List Nat) (M : Nat)
    (s : GenState) (piece : Str) (j : Nat)
    (hlen : ¬ M < (s.text ++ piece).length)
    (hm2 : ¬ containsSub (s.text ++ piece) mark2 = true)
    (hr3 : rfind (s.text ++ piece) mark3 = some j) :
    ∃ ev, genStep tk M s tok piece =
      .stop ⟨(s.text ++ piece) ++
        FORCE_AFTER3.drop (lcp ((s.text ++ piece).drop (j + mark3.length)) FORCE_AFTER3),
        ev⟩ .partialEnd := by
  unfold genStep
  simp only [if_neg h0, if_neg hlen, if_neg hm2, hr3]
  by_cases hmiss : (FORCE_AFTER3.drop
      (lcp ((s.text ++ piece).drop (j + mark3.length)) FORCE_AFTER3)).isEmpty
  · refine ⟨s.evaled ++ [tok], ?_⟩
    rw [if_pos hmiss, List.isEmpty_iff.1 hmiss, List.append_nil]
  · rw [if_neg hmiss]
    exact ⟨_, rfl⟩

lemma genStep_opener {tok : Nat} (h0 : tok ≠ 0) (tk : Str → List Nat) (M : Nat)
    (s : GenState) (piece : Str) (i : Nat)
    (hlen : ¬ M < (s.text ++ piece).length)
    (hm2 : ¬ containsSub (s.text ++ piece) mark2 = true)
    (hr3 : rfind (s.text ++ piece) mark3 = none)
    (hr1 : rfind (s.text ++ piece) mark1 = some i) :
    ∃ ev, genStep tk M s tok piece =
      .stop ⟨(s.text ++ piece) ++
        FORCE_AFTER.drop (lcp ((s.text ++ piece).drop (i + mark1.length)) FORCE_AFTER),
        ev⟩ .opener := by
  unfold genStep
  simp only [if_neg h0, if_neg hlen, if_neg hm2, hr3, hr1]
  by_cases hmiss : (FORCE_AFTER.drop
      (lcp ((s.text ++ piece).drop (i + mark1.length)) FORCE_AFTER)).isEmpty
  · refine ⟨s.evaled ++ [tok], ?_⟩
    rw [if_pos hmiss, List.isEmpty_iff.1 hmiss, List.append_nil]
  · rw [if_neg hmiss]
    exact ⟨_, rfl⟩

lemma genStep_next {tok : Nat} (h0 : tok ≠ 0) (tk : Str → List Nat) (M : Nat)
    (s : GenState) (piece : Str)
    (hlen : ¬ M < (s.text ++ piece).length)
    (hm2 : ¬ containsSub (s.text ++ piece) mark2 = true)
    (hr3 : rfind (s.text ++ piece) mark3 = none)
    (hr1 : rfind (s.text ++ piece) mark1 = none) :
    genStep tk M s tok piece = .next ⟨s.text ++ piece, s.evaled ++ [tok]⟩ := by
  unfold genStep
  simp only [if_neg h0, if_neg hlen, if_neg hm2, hr3, hr1]

lemma ExitOk_mk_eos (M : Nat) (s : GenState) (hs : NoMarks s.text) :
    ExitOk M (s, ExitCause.eos) := by
  unfold ExitOk
  refine ⟨fun _ => ⟨hs, fence_false_of_noMarks hs⟩, ?_, ?_, ?_, ?_⟩ <;>
    exact fun h => by simp at h

lemma ExitOk_mk_exhausted (M : Nat) (s : GenState) (hs : NoMarks s.text) :
    ExitOk M (s, ExitCause.exhausted) := by
  unfold ExitOk
  refine ⟨fun _ => ⟨hs, fence_false_of_noMarks hs⟩, ?_, ?_, ?_, ?_⟩ <;>
    exact fun h => by simp at h

lemma ExitOk_mk_budget (M : Nat) (s : GenState) (h : M < s.text.length) :
    ExitOk M (s, ExitCause.budget) := by
  unfold ExitOk
  refine ⟨fun hc => by simp at hc, fun _ => h, ?_, ?_, ?_⟩ <;>
    exact fun hc => by simp at hc

lemma ExitOk_mk_fullClose (M : Nat) (s : GenState)
    (h : containsSub s.text mark2 = true) : ExitOk M (s, ExitCause.fullClose) := by
  unfold ExitOk
  refine ⟨fun hc => by simp at hc, fun hc => by simp at hc,
    fun _ => h, ?_, ?_⟩ <;> exact fun hc => by simp at hc

lemma ExitOk_mk_partialEnd (M : Nat) (s : GenState)
    (h : containsSub s.text mark3 = true) : ExitOk M (s, ExitCause.partialEnd) := by
  unfold ExitOk
  refine ⟨fun hc => by simp at hc, fun hc => by simp at hc,
    fun hc => by simp at hc, fun _ => h, ?_⟩
  exact fun hc => by simp at hc

lemma ExitOk_mk_opener (M : Nat) (s : GenState)
    (h : containsSub s.text mark1 = true) : ExitOk M (s, ExitCause.opener) := by
  unfold ExitOk
  refine ⟨fun hc => by simp at hc, fun hc => by simp at hc,
    fun hc => by simp at hc, fun hc => by simp at hc, fun _ => h⟩

lemma genRun_exitOk (tk : Str → List Nat) (M : Nat) :
    ∀ (samples : List (Nat × Str)) (s : GenState), NoMarks s.text →
      ExitOk M (genRun tk M s samples) := by
  intro samples
  induction samples with
  | nil =>
      intro s hs
      exact ExitOk_mk_exhausted M s hs
  | cons tp rest ih =>
      obtain ⟨tok, piece⟩ := tp
      intro s hs
      by_cases h0 : tok = 0
      · subst h0
        simp only [genRun, genStep_eos]
        exact ExitOk_mk_eos M s hs
      · by_cases hlen : M < (s.text ++ piece).length
        · simp only [genRun, genStep_budget h0 tk M s piece hlen]
          exact ExitOk_mk_budget M _ hlen
        · by_cases hm2 : containsSub (s.text ++ piece) mark2 = true
          · simp only [genRun, genStep_fullClose h0 tk M s piece hlen hm2]
            exact ExitOk_mk_fullClose M _ hm2
          · cases hr3 : rfind (s.text ++ piece) mark3 with
            | some j =>
                have hc3 : containsSub (s.text ++ piece) mark3 = true := by
                  rw [containsSub, hr3]; rfl
                obtain ⟨ev, hev⟩ := genStep_partialEnd h0 tk M s piece j hlen hm2 hr3
                simp only [genRun, hev]
                exact ExitOk_mk_partialEnd M _ (containsSub_append hc3)
            | none =>
                cases hr1 : rfind (s.text ++ piece) mark1 with
                | some i =>
                    have hc1 : containsSub (s.text ++ piece) mark1 = true := by
                      rw [containsSub, hr1]; rfl
                    obtain ⟨ev, hev⟩ := genStep_opener h0 tk M s piece i hlen hm2 hr3 hr1
                    simp only [genRun, hev]
                    exact ExitOk_mk_opener M _ (containsSub_append hc1)
                | none =>
                    simp only [genRun, genStep_next h0 tk M s piece hlen hm2 hr3 hr1]
                    apply ih
                    refine ⟨?_, ?_, ?_⟩
                    · rw [containsSub, hr1]; rfl
                    · simpa using hm2
                    · rw [containsSub, hr3]; rfl

/-- C1 (counterexample): the claim states the reply either ends with
exactly one canonical fence or contains no fence, with the no-fence case
only at the character budget. A run whose second sample is the
end-of-stream token (id 0) returns the fence-free reply "Hello" with the
budget (8192) untouched, refuting the claim as stated. -/
theorem C1_counterexample :
    gen_until_stop (fun _ => [1]) 8192 [(5, str "Hello"), (0, [])] =
      (⟨str "Hello", [5]⟩, ExitCause.eos) ∧
    ¬ ((endsWithFence (str "Hello") = true ∧ fenceCount (str "Hello") = 1) ∨
        (containsSub (str "Hello") FENCE = false ∧ ExitCause.eos = ExitCause.budget)) := by
  constructor
  · decide
  · decide

/-- C1 (amended): every run of `gen_until_stop` exits for one of five
reasons, and the reply is characterized by the exit cause: an
end-of-stream (or exhausted-oracle) exit leaves a reply containing none of
the three stop markers and hence no canonical fence; a budget exit leaves
a reply longer than the budget; a full-close exit leaves a reply
containing ")~~~\n\n"; a partial-end or opener forcing exit leaves a
reply containing the detected marker. A reply ending with exactly one
canonical fence is NOT guaranteed: the fence may be absent without the
budget being hit. -/
theorem C1_gen_exit_characterization (tk : Str → List Nat) (M : Nat)
    (samples : List (Nat × Str)) : ExitOk M (gen_until_stop tk M samples) :=
  genRun_exitOk tk M samples ⟨[], []⟩ (by decide)

/-- C1 (witness): the exit characterization applied to a concrete
end-of-stream run. -/
theorem C1_gen_exit_characterization_witness :
    NoMarks (str "Hello") ∧ containsSub (str "Hello") FENCE = false :=
  (C1_gen_exit_characterization (fun _ => [1]) 8192
    [(5, str "Hello"), (0, [])]).1 (Or.inl (by decide))

/-- C2: whenever the accumulated text contains FULL_CLOSE ")~~~\n\n" after
appending the just-sampled token's decoded piece, the loop stops and
returns without evaluating that token (the evaluated-token list is
unchanged; at or below the budget the cause is the full-close rule), the
FULL_CLOSE rule takes precedence over the PARTIAL_END rule, and
PARTIAL_END takes precedence over OPENER. -/
theorem C2_full_close_stop (tk : Str → List Nat) (M : Nat) :
    (∀ (s : GenState) (tok : Nat) (piece : Str),
        tok ≠ 0 → containsSub (s.text ++ piece) mark2 = true →
        (∃ c, genStep tk M s tok piece = .stop ⟨s.text ++ piece, s.evaled⟩ c ∧
          (c = .budget ∨ c = .fullClose)) ∧
        (¬ M < (s.text ++ piece).length →
          genStep tk M s tok piece = .stop ⟨s.text ++ piece, s.evaled⟩ .fullClose)) ∧
    (∀ (s : GenState) (tok : Nat) (piece : Str) (rest : List (Nat × Str)),
        tok ≠ 0 → containsSub (s.text ++ piece) mark2 = true →
        ∃ c, genRun tk M s ((tok, piece) :: rest) = (⟨s.text ++ piece, s.evaled⟩, c)) ∧
    (∀ (s : GenState) (tok : Nat) (piece : Str) (j : Nat),
        tok ≠ 0 → ¬ M < (s.text ++ piece).length →
        containsSub (s.text ++ piece) mark2 = false →
        rfind (s.text ++ piece) mark3 = some j →
        ∃ s', genStep tk M s tok piece = .stop s' .partialEnd) := by
  refine ⟨?_, ?_, ?_⟩
  · intro s tok piece h0 hm2
    constructor
    · by_cases hlen : M < (s.text ++ piece).length
      · exact ⟨.budget, genStep_budget h0 tk M s piece hlen, Or.inl rfl⟩
      · exact ⟨.fullClose, genStep_fullClose h0 tk M s piece hlen hm2, Or.inr rfl⟩
    · intro hlen
      exact genStep_fullClose h0 tk M s piece hlen hm2
  · intro s tok piece rest h0 hm2
    by_cases hlen : M < (s.text ++ piece).length
    · exact ⟨.budget, by simp only [genRun, genStep_budget h0 tk M s piece hlen]⟩
    · exact ⟨.fullClose, by simp only [genRun, genStep_fullClose h0 tk M s piece hlen hm2]⟩
  · intro s tok piece j h0 hlen hm2 hr3
    obtain ⟨ev, hev⟩ := genStep_partialEnd h0 tk M s piece j hlen (by simp [hm2]) hr3
    exact ⟨_, hev⟩

/-- C2 (witness): a concrete step whose sampled piece completes the full
close marker stops with cause fullClose and an unchanged evaluated list. -/
theorem C2_full_close_stop_witness :
    genStep (fun _ => []) 100 ⟨str "A", [3]⟩ 7 (str ")~~~\n\n") =
      .stop ⟨str "A" ++ str ")~~~\n\n", [3]⟩ ExitCause.fullClose :=
  ((C2_full_close_stop (fun _ => []) 100).1 ⟨str "A", [3]⟩ 7 (str ")~~~\n\n")
    (by decide) (by decide)).2 (by decide)

/-! ## Python string helpers shared by the tool and the runners -/

/-- Python `str.isspace` characters relevant to `strip`/`split`
(ASCII whitespace; the inputs of this system are ASCII-framed). -/
def isPySpace (c : Char) : Bool :=
  c == ' ' || c == '\t' || c == '\n' || c == '\r' || c == '\x0b' || c == '\x0c'

/-- Python `s.strip()`. -/
def pyStrip (s : Str) : Str :=
  ((s.dropWhile isPySpace).reverse.dropWhile isPySpace).reverse

/-- Python `s.split()` with no maxsplit: whitespace-run separated tokens. -/
def pySplitAux : Nat → Str → List Str
  | 0, _ => []
  | fuel + 1, s =>
      let t := s.dropWhile isPySpace
      if t.isEmpty then []
      else
        let tok := t.takeWhile (fun c => !isPySpace c)
        tok :: pySplitAux fuel (t.drop tok.length)

def pySplit (s : Str) : List Str := pySplitAux (s.length + 1) s

/-- Python `s.split(maxsplit=1)`. -/
def pySplitMax1 (s : Str) : List Str :=
  let t := s.dropWhile isPySpace
  if t.isEmpty then []
  else
    let tok := t.takeWhile (fun c => !isPySpace c)
    let rest := (t.drop tok.length).dropWhile isPySpace
    if rest.isEmpty then [tok] else [tok, rest]

/-- Python `s.partition("\n")`: text before the first newline and after it
(empty when there is no newline). -/
def partitionNl (s : Str) : Str × Str :=
  let pre := s.takeWhile (fun c => !(c == '\n'))
  let rest := s.drop pre.length
  match rest with
  | [] => (pre, [])
  | _ :: tail => (pre, tail)

/-! ## Decimal integers: Python `str(n)` and `int(s)` -/

def digitChar (d : Nat) : Char := Char.ofNat (48 + d)

/-- Fuel-driven decimal rendering of a positive natural. -/
def natStrAux : Nat → Nat → Str
  | 0, _ => []
  | fuel + 1, n => if n = 0 then [] else natStrAux fuel (n / 10) ++ [digitChar (n % 10)]

/-- Python `str(n)` for a natural number. -/
def natStr (n : Nat) : Str := if n = 0 then ['0'] else natStrAux (n + 1) n

/-- Python `str(n)` for an integer. -/
def intStr : Int → Str
  | .ofNat n => natStr n
  | .negSucc n => '-' :: natStr (n + 1)

/-- Numeric value of a digit string. -/
def digitsVal (cs : Str) : Nat := cs.foldl (fun a c => 10 * a + (c.toNat - 48)) 0

/-- Python `int(s)` on a stripped string: optional sign then digits;
anything else raises, modelled as `none`. -/
def pyInt? (cs : Str) : Option Int :=
  match cs with
  | [] => none
  | c :: rest =>
      if c = '-' then
        if !rest.isEmpty && rest.all Char.isDigit then some (-(digitsVal rest : Int)) else none
      else if c = '+' then
        if !rest.isEmpty && rest.all Char.isDigit then some ((digitsVal rest : Int)) else none
      else if (c :: rest).all Char.isDigit then some ((digitsVal (c :: rest) : Int)) else none

/-! ### Decimal roundtrip lemmas -/

lemma digitChar_toNat {d : Nat} (h : d < 10) : (digitChar d).toNat = 48 + d := by
  interval_cases d <;> decide

lemma digitChar_isDigit {d : Nat} (h : d < 10) : (digitChar d).isDigit = true := by
  interval_cases d <;> decide

lemma digitsVal_append_digit (cs : Str) (c : Char) :
    digitsVal (cs ++ [c]) = 10 * digitsVal cs + (c.toNat - 48) := by
  rw [digitsVal, digitsVal, List.foldl_append]
  rfl

lemma natStrAux_val : ∀ (fuel n : Nat), n ≤ fuel → digitsVal (natStrAux fuel n) = n := by
  intro fuel
  induction fuel with
  | zero => intro n hn; interval_cases n; decide
  | succ fuel ih =>
      intro n hn
      by_cases h0 : n = 0
      · subst h0; simp [natStrAux, digitsVal]
      · rw [natStrAux, if_neg h0, digitsVal_append_digit,
          ih (n / 10) (by omega), digitChar_toNat (Nat.mod_lt n (by omega))]
        omega

lemma natStrAux_digits : ∀ (fuel n : Nat), ∀ c ∈ natStrAux fuel n, c.isDigit = true := by
  intro fuel
  induction fuel with
  | zero => intro n c hc; simp [natStrAux] at hc
  | succ fuel ih =>
      intro n c hc
      by_cases h0 : n = 0
      · subst h0; simp [natStrAux] at hc
      · rw [natStrAux, if_neg h0] at hc
        rcases List.mem_append.1 hc with h | h
        · exact ih _ _ h
        · rw [List.mem_singleton] at h
          subst h
          exact digitChar_isDigit (Nat.mod_lt n (by omega))

lemma natStr_digits (n : Nat) : ∀ c ∈ natStr n, c.isDigit = true := by
  intro c hc
  by_cases h0 : n = 0
  · subst h0; simp [natStr] at hc; subst hc; decide
  · rw [natStr, if_neg h0] at hc
    exact natStrAux_digits _ _ _ hc

lemma natStr_ne_nil (n : Nat) : natStr n ≠ [] := by
  by_cases h0 : n = 0
  · subst h0; decide
  · rw [natStr, if_neg h0]
    intro hc
    have := natStrAux_val (n + 1) n (by omega)
    rw [hc] at this
    simp [digitsVal] at this
    omega

lemma digitsVal_natStr (n : Nat) : digitsVal (natStr n) = n := by
  by_cases h0 : n = 0
  · subst h0; decide
  · rw [natStr, if_neg h0]
    exact natStrAux_val _ _ (by omega)

lemma isDigit_not_space {c : Char} (h : c.isDigit = true) : isPySpace c = false := by
  cases hc : isPySpace c
  · rfl
  · exfalso
    simp only [isPySpace, Bool.or_eq_true, beq_iff_eq] at hc
    rcases hc with ((((h1 | h1) | h1) | h1) | h1) | h1 <;> (subst h1; exact absurd h (by decide))

lemma dropWhile_eq_self_of_all {p : Char → Bool} {s : Str}
    (h : ∀ c ∈ s, p c = false) : s.dropWhile p = s := by
  cases s with
  | nil => rfl
  | cons c t =>
      rw [List.dropWhile_cons, h c (List.mem_cons_self c t)]
      simp

lemma pyStrip_of_all_nonspace {s : Str} (h : ∀ c ∈ s, isPySpace c = false) :
    pyStrip s = s := by
  rw [pyStrip, dropWhile_eq_self_of_all h,
    dropWhile_eq_self_of_all (fun c hc => h c (List.mem_reverse.1 hc)), List.reverse_reverse]

lemma pyStrip_natStr (n : Nat) : pyStrip (natStr n) = natStr n :=
  pyStrip_of_all_nonspace (fun c hc => isDigit_not_space (natStr_digits n c hc))

lemma pyInt?_natStr (n : Nat) : pyInt? (natStr n) = some (n : Int) := by
  cases hs : natStr n with
  | nil => exact absurd hs (natStr_ne_nil n)
  | cons c rest =>
      have hdig : ∀ x ∈ c :: rest, Char.isDigit x = true := by
        rw [← hs]; exact natStr_digits n
      have hc : c.isDigit = true := hdig c (List.mem_cons_self c rest)
      have hcm : ¬ c = '-' := by intro he; subst he; exact absurd hc (by decide)
      have hcp : ¬ c = '+' := by intro he; subst he; exact absurd hc (by decide)
      rw [pyInt?, if_neg hcm, if_neg hcp, if_pos (List.all_eq_true.2 hdig), ← hs,
        digitsVal_natStr]

lemma intStr_of_nonneg {n : Int} (h : 0 ≤ n) : intStr n = natStr n.toNat := by
  cases n with
  | ofNat m => rfl
  | negSucc m => exact absurd h (by simp)

/-! ## The transcript tool (src/src/tools.py, the strict canonical copy) -/

/-- The tool's working files, modelled as an association list
path ↦ text content (missing key = missing file). -/
abbrev ToolFS := List (String × Str)

def TRANSCRIPT : String := ".transcript.txt"
def COUNTER : String := ".counter"

/-- Overwrite (or create) a file. -/
def fsWrite (fs : ToolFS) (p : String) (v : Str) : ToolFS := (p, v) :: fs

/-- `_read_text`: return the content, or "" on any failure. -/
def read_text (fs : ToolFS) (p : String) : Str := (List.lookup p fs).getD []

/-- `_append_text`: append to a file (Python mode "a" creates it). -/
def append_text (fs : ToolFS) (p : String) (s : Str) : ToolFS :=
  fsWrite fs p (read_text fs p ++ s)

/-! ### Header scanning: `HEAD_RE = (?m)^\(Turn\s+(\d+)\)\s*\[([^\]]+)\]:\s*`
translated as a deterministic maximal-munch matcher (all the quantified
character classes of the pattern are disjoint from what follows them, so
the regex engine never backtracks on this pattern). -/

/-- One header match: match start, match end (= content start used by
`_parse_turns`), the turn number, and the role. -/
structure Hdr where
  start : Nat
  stop : Nat
  turn : Nat
  role : Str
deriving DecidableEq, Repr

/-- Try to match `HEAD_RE` at the start of `s` (which the caller
guarantees is a line start). Returns (turn, role, match length). -/
def matchHeaderAt (s : Str) : Option (Nat × Str × Nat) :=
  if (str "(Turn").isPrefixOf s then
    let r1 := s.drop 5
    let w1 := (r1.takeWhile isPySpace).length
    if w1 = 0 then none else
    let r2 := r1.drop w1
    let ds := r2.takeWhile Char.isDigit
    if ds.length = 0 then none else
    match r2.drop ds.length with
    | ')' :: r4 =>
        let w2 := (r4.takeWhile isPySpace).length
        match r4.drop w2 with
        | '[' :: r6 =>
            let role := r6.takeWhile (fun c => !(c == ']'))
            if role.length = 0 then none else
            match r6.drop role.length with
            | ']' :: ':' :: r7 =>
                let w3 := (r7.takeWhile isPySpace).length
                some (digitsVal ds, role,
                  5 + w1 + ds.length + 1 + w2 + 1 + role.length + 2 + w3)
            | _ => none
        | _ => none
    | _ => none
  else none

/-- `re.finditer(HEAD_RE, txt)`: scan left to right, matching only at
line starts, resuming after each match (fuel-driven; fuel `length + 1`
suffices since every step consumes at least one character). -/
def scanHeadersAux : Nat → Str → Nat → Bool → List Hdr
  | 0, _, _, _ => []
  | _ + 1, [], _, _ => []
  | fuel + 1, c :: rest, pos, atStart =>
      if atStart then
        match matchHeaderAt (c :: rest) with
        | some (n, role, len) =>
            { start := pos, stop := pos + len, turn := n, role := role } ::
              scanHeadersAux fuel ((c :: rest).drop len) (pos + len)
                (decide (((c :: rest).take len).getLast? = some '\n'))
        | none => scanHeadersAux fuel rest (pos + 1) (c == '\n')
      else scanHeadersAux fuel rest (pos + 1) (c == '\n')

/-- `_iter_headers`: all header matches of the transcript, in order. -/
def scanHeaders (s : Str) : List Hdr := scanHeadersAux (s.length + 1) s 0 true

/-- Python `txt[a:b]`. -/
def sliceStr (txt : Str) (a b : Nat) : Str := (txt.take b).drop a

/-- The per-header body of `_parse_turns` (tools.py lines 89-101):
span runs to the next header (or EOF); the content ends at the last
strict fence in the span; fence-less turns are skipped. -/
def turnsFrom (txt : Str) : List Hdr → List (Nat × Str × Str)
  | [] => []
  | h :: rest =>
      let spanEnd := match rest with | [] => txt.length | h2 :: _ => h2.start
      match rfindRange txt FENCE h.stop spanEnd with
      | none => turnsFrom txt rest
      | some fpos => (h.turn, h.role, sliceStr txt h.stop fpos) :: turnsFrom txt rest

/-- `_parse_turns` (tools.py lines 75-102). -/
def parse_turns (txt : Str) : List (Nat × Str × Str) :=
  turnsFrom txt (scanHeaders txt)

/-- `_highest_turn`: the largest turn id among headers, -1 when none. -/
def highest_turn (txt : Str) : Int :=
  (scanHeaders txt).foldl (fun hi h => max hi (h.turn : Int)) (-1)

/-! ### The turn counter (`_ensure_counter`, `_read_counter`, `_next_turn`) -/

/-- `_ensure_counter`: create `.counter` from the transcript when absent. -/
def ensure_counter (fs : ToolFS) : ToolFS :=
  match List.lookup COUNTER fs with
  | some _ => fs
  | none => fsWrite fs COUNTER (intStr (max 0 (highest_turn (read_text fs TRANSCRIPT))))

/-- `_read_counter`: ensure, then parse the stripped content; on a parse
failure rewrite the counter from the transcript's highest turn. Returns
the value and the possibly-updated file system. -/
def read_counter (fs : ToolFS) : Int × ToolFS :=
  let fs1 := ensure_counter fs
  let s := pyStrip (read_text fs1 COUNTER)
  if s.isEmpty then (0, fs1)
  else
    match pyInt? s with
    | some v => (v, fs1)
    | none =>
        let hi := max 0 (highest_turn (read_text fs1 TRANSCRIPT))
        let s2 := pyStrip (intStr hi)
        ((if s2.isEmpty then 0 else (pyInt? s2).getD 0), fsWrite fs1 COUNTER (intStr hi))

/-- `_next_turn` (tools.py lines 134-138): mint
`max(highest_in_transcript, counter) + 1` and persist it. -/
def next_turn (fs : ToolFS) : Int × ToolFS :=
  let hi := highest_turn (read_text fs TRANSCRIPT)
  let c := (read_counter fs).1
  let n := max hi c + 1
  (n, fsWrite (read_counter fs).2 COUNTER (intStr n))

/-! ### The service roundtrip and `cmd_PUT` -/

/-- `_echo_roundtrip`: the service is an oracle; `none` models any
exception (unreachable service, timeout), which Python converts to `""`. -/
def echo_roundtrip (service : Str → Option Str) (body : Str) : Str :=
  (service body).getD []

/-- `cmd_PUT` (src/src/tools.py lines 183-202): read the input file
(silent exit when unreadable), mint a turn id, compose the half-open
`[FILE]` body, send it, and append body and reply to the transcript. -/
def cmd_PUT (service : Str → Option Str) (fs : ToolFS) (argv : List String) : ToolFS :=
  match argv with
  | [p] =>
      match List.lookup p fs with
      | none => fs
      | some content =>
          let n := (next_turn fs).1
          let fs1 := (next_turn fs).2
          let content2 := if (str "\n").isSuffixOf content then content else content ++ str "\n"
          let body := str "(Turn " ++ intStr n ++ str ") [FILE]: " ++ content2 ++ str "\n~~~("
          let reply := echo_roundtrip service body
          append_text (append_text fs1 TRANSCRIPT body) TRANSCRIPT reply
  | _ => fs

/-! ### File-system lemmas -/

lemma lookup_fsWrite_self (fs : ToolFS) (p : String) (v : Str) :
    List.lookup p (fsWrite fs p v) = some v := by
  simp [fsWrite, List.lookup]

lemma lookup_fsWrite_other {p q : String} (fs : ToolFS) (v : Str) (h : p ≠ q) :
    List.lookup p (fsWrite fs q v) = List.lookup p fs := by
  have hb : (p == q) = false := beq_eq_false_iff_ne.2 h
  simp [fsWrite, List.lookup, hb]

lemma read_text_append_self (fs : ToolFS) (p : String) (s : Str) :
    read_text (append_text fs p s) p = read_text fs p ++ s := by
  rw [append_text, read_text, lookup_fsWrite_self]
  rfl

lemma neg_one_le_highest_turn (txt : Str) : -1 ≤ highest_turn txt := by
  have hgen : ∀ (l : List Hdr) (a : Int),
      a ≤ l.foldl (fun hi h => max hi (h.turn : Int)) a := by
    intro l
    induction l with
    | nil => intro a; exact le_refl a
    | cons h t ih => intro a; exact le_trans (le_max_left _ _) (ih _)
  exact hgen _ _

lemma next_turn_nonneg (fs : ToolFS) : 0 ≤ (next_turn fs).1 := by
  have h := neg_one_le_highest_turn (read_text fs TRANSCRIPT)
  have h2 := le_max_left (highest_turn (read_text fs TRANSCRIPT)) (read_counter fs).1
  simp only [next_turn]
  omega

lemma natStr_isEmpty_false (n : Nat) : (natStr n).isEmpty = false := by
  cases hx : natStr n with
  | nil => exact absurd hx (natStr_ne_nil n)
  | cons c t => rfl

lemma read_counter_val_of_lookup {fs : ToolFS} {n : Int} (hn : 0 ≤ n)
    (h : List.lookup COUNTER fs = some (intStr n)) : (read_counter fs).1 = n := by
  have hens : ensure_counter fs = fs := by rw [ensure_counter, h]
  have hv : read_text fs COUNTER = intStr n := by rw [read_text, h]; rfl
  simp only [read_counter, hens, hv, intStr_of_nonneg hn, pyStrip_natStr,
    natStr_isEmpty_false, Bool.false_eq_true, if_false, pyInt?_natStr,
    Int.toNat_of_nonneg hn]

lemma read_text_transcript_write_counter (fs : ToolFS) (v : Str) :
    read_text (fsWrite fs COUNTER v) TRANSCRIPT = read_text fs TRANSCRIPT := by
  rw [read_text, read_text, lookup_fsWrite_other fs v (by decide)]

lemma ensure_counter_transcript (fs : ToolFS) :
    read_text (ensure_counter fs) TRANSCRIPT = read_text fs TRANSCRIPT := by
  rw [ensure_counter]
  cases h : List.lookup COUNTER fs with
  | none => exact read_text_transcript_write_counter fs _
  | some v => rfl

lemma read_counter_transcript (fs : ToolFS) :
    read_text (read_counter fs).2 TRANSCRIPT = read_text fs TRANSCRIPT := by
  unfold read_counter
  by_cases he : (pyStrip (read_text (ensure_counter fs) COUNTER)).isEmpty
  · simp only [he, if_true]
    exact ensure_counter_transcript fs
  · simp only [he, Bool.false_eq_true, if_false]
    cases hp : pyInt? (pyStrip (read_text (ensure_counter fs) COUNTER)) with
    | some v => exact ensure_counter_transcript fs
    | none =>
        rw [read_text_transcript_write_counter]
        exact ensure_counter_transcript fs

/-- C4: every mint by `_next_turn` equals
`max(highest turn in transcript, current counter) + 1`, it is written to
the counter file, it strictly exceeds the previous counter value, and
reading the counter back yields the minted id (so the counter is strictly
monotonic across minting tool operations). -/
theorem C4_next_turn_mint (fs : ToolFS) :
    (next_turn fs).1 =
      max (highest_turn (read_text fs TRANSCRIPT)) (read_counter fs).1 + 1 ∧
    List.lookup COUNTER (next_turn fs).2 = some (intStr (next_turn fs).1) ∧
    (read_counter fs).1 < (next_turn fs).1 ∧
    (read_counter (next_turn fs).2).1 = (next_turn fs).1 := by
  refine ⟨rfl, ?_, ?_, ?_⟩
  · simp only [next_turn]
    exact lookup_fsWrite_self _ _ _
  · simp only [next_turn]
    have := le_max_right (highest_turn (read_text fs TRANSCRIPT)) (read_counter fs).1
    omega
  · exact read_counter_val_of_lookup (next_turn_nonneg fs)
      (by simp only [next_turn]; exact lookup_fsWrite_self _ _ _)

/-- C3 (code evaluation at the failing input): on a transcript whose turn
content begins with a space, the parser returns the content with ALL
whitespace after the colon stripped (the regex ends in a greedy \s*),
whereas the claim — and the parser's own comments — place the content
start exactly one byte past the header's trailing space, which here is
position 17, giving " hi". -/
theorem C3_parse_eats_leading_whitespace :
    parse_turns (str "(Turn 1) [FILE]:  hi\n\n~~~(end)~~~\n\n") =
      [(1, str "FILE", str "hi")] ∧
    sliceStr (str "(Turn 1) [FILE]:  hi\n\n~~~(end)~~~\n\n") 17 20 = str " hi" ∧
    str "hi" ≠ str " hi" := by
  refine ⟨by decide, by decide, by decide⟩

/-- C8 (counterexample): a PUT whose input file is readable but whose
service is unreachable (the roundtrip oracle returns `none`, which
`_echo_roundtrip` converts to an empty reply) still updates the counter
file and appends the composed body to the transcript, refuting the claim
that every tool operation leaves both files unmodified on any error. -/
theorem C8_counterexample :
    ¬ (read_text (cmd_PUT (fun _ => none)
          [(TRANSCRIPT, ([] : Str)), (COUNTER, str "4"), ("foo.txt", str "abc\n")]
          ["foo.txt"]) TRANSCRIPT =
        read_text [(TRANSCRIPT, ([] : Str)), (COUNTER, str "4"), ("foo.txt", str "abc\n")]
          TRANSCRIPT ∧
       List.lookup COUNTER (cmd_PUT (fun _ => none)
          [(TRANSCRIPT, ([] : Str)), (COUNTER, str "4"), ("foo.txt", str "abc\n")]
          ["foo.txt"]) =
        List.lookup COUNTER
          [(TRANSCRIPT, ([] : Str)), (COUNTER, str "4"), ("foo.txt", str "abc\n")]) := by
  decide

/-- C8 (amended): errors detected before a turn id is minted (wrong
argument count, unreadable input file) leave the file system unmodified
and the tool exits with code 0; once the input file is readable, `cmd_PUT`
mints the turn id and appends the body plus the (possibly empty) reply to
the transcript even when the service roundtrip fails, so the counter
strictly increases and the transcript strictly grows. -/
theorem C8_put_error_behavior :
    (∀ (service : Str → Option Str) (fs : ToolFS) (p : String),
        List.lookup p fs = none → cmd_PUT service fs [p] = fs) ∧
    (∀ (service : Str → Option Str) (fs : ToolFS) (argv : List String),
        argv.length ≠ 1 → cmd_PUT service fs argv = fs) ∧
    (∀ (service : Str → Option Str) (fs : ToolFS) (p : String) (content : Str),
        List.lookup p fs = some content →
        (read_counter fs).1 < (read_counter (cmd_PUT service fs [p])).1 ∧
        (read_text fs TRANSCRIPT).length <
          (read_text (cmd_PUT service fs [p]) TRANSCRIPT).length) := by
  refine ⟨?_, ?_, ?_⟩
  · intro service fs p h
    simp only [cmd_PUT, h]
  · intro service fs argv h
    match argv with
    | [] => rfl
    | [a] => exact absurd rfl h
    | a :: b :: t => rfl
  · intro service fs p content h
    simp only [cmd_PUT, h]
    have hct : (COUNTER : String) ≠ TRANSCRIPT := by decide
    have htc : (TRANSCRIPT : String) ≠ COUNTER := by decide
    have hnl : List.lookup COUNTER (next_turn fs).2 = some (intStr (next_turn fs).1) := by
      simp only [next_turn]
      exact lookup_fsWrite_self _ _ _
    constructor
    · have hl : List.lookup COUNTER
          (append_text (append_text (next_turn fs).2 TRANSCRIPT
              (str "(Turn " ++ intStr (next_turn fs).1 ++ str ") [FILE]: " ++
                (if (str "\n").isSuffixOf content then content else content ++ str "\n") ++
                str "\n~~~(")) TRANSCRIPT
            (echo_roundtrip service
              (str "(Turn " ++ intStr (next_turn fs).1 ++ str ") [FILE]: " ++
                (if (str "\n").isSuffixOf content then content else content ++ str "\n") ++
                str "\n~~~("))) = some (intStr (next_turn fs).1) := by
        rw [append_text, append_text, lookup_fsWrite_other _ _ hct,
          lookup_fsWrite_other _ _ hct]
        exact hnl
      rw [read_counter_val_of_lookup (next_turn_nonneg fs) hl]
      have := le_max_right (highest_turn (read_text fs TRANSCRIPT)) (read_counter fs).1
      simp only [next_turn]
      omega
    · rw [read_text_append_self, read_text_append_self]
      have htr : read_text (next_turn fs).2 TRANSCRIPT = read_text fs TRANSCRIPT := by
        simp only [next_turn]
        rw [read_text_transcript_write_counter]
        exact read_counter_transcript fs
      rw [htr]
      simp only [List.length_append, str, List.length_cons, List.length_nil]
      omega

/-- C8 (witness): a PUT whose input file is missing exits without
touching the file system. -/
theorem C8_put_error_behavior_witness :
    cmd_PUT (fun _ => none) [(COUNTER, str "4")] ["foo.txt"] = [(COUNTER, str "4")] :=
  C8_put_error_behavior.1 (fun _ => none) [(COUNTER, str "4")] "foo.txt" (by decide)

/-! ## Sampling-profile JSON (`save_knob_set` / `load_knob_set`)

Python float values are opaque to the embedding: they form an abstract
type `V`; `float(...)` applied to a JSON integer and `int(...)` applied
to a JSON float are oracle casts `i2f` / `f2i`. -/

/-- A JSON numeric value in a profile file. -/
inductive JNum (V : Type) where
  | jfloat (v : V)
  | jint (n : Int)
deriving DecidableEq, Repr

/-- A profile file: a JSON object, keys in insertion order. -/
abbrev KnobFile (V : Type) := List (String × JNum V)

/-- `float(d.get(key, default))` with tolerant casting. -/
def jGetF {V : Type} (i2f : Int → V) (d : KnobFile V) (key : String) (dflt : V) : V :=
  match List.lookup key d with
  | none => dflt
  | some (.jfloat v) => v
  | some (.jint n) => i2f n

/-- `int(d.get(key, default))` with tolerant casting. -/
def jGetI {V : Type} (f2i : V → Int) (d : KnobFile V) (key : String) (dflt : Int) : Int :=
  match List.lookup key d with
  | none => dflt
  | some (.jint n) => n
  | some (.jfloat v) => f2i v

namespace RWKV7

/-- The six sampling knobs of the RWKV runner (RWKV7.py lines 24-30;
it has no `min_p`). -/
structure Knobs (V : Type) where
  temp : V
  top_p : V
  top_k : Int
  pen_freq : V
  pen_pres : V
  pen_rep : V
deriving DecidableEq, Repr

/-- The module-level defaults TEMP, TOP_P, TOP_K, PEN_FREQ, PEN_PRES,
PEN_REP (their float values are opaque). -/
structure Defaults (V : Type) where
  TEMP : V
  TOP_P : V
  TOP_K : Int
  PEN_FREQ : V
  PEN_PRES : V
  PEN_REP : V

/-- `save_knob_set` (RWKV7.py lines 120-130): the JSON object written,
keys in the insertion order of the Python dict literal. -/
def save_knob_set {V : Type} (k : Knobs V) : KnobFile V :=
  [("temp", .jfloat k.temp), ("top_p", .jfloat k.top_p), ("top_k", .jint k.top_k),
   ("pen_freq", .jfloat k.pen_freq), ("pen_pres", .jfloat k.pen_pres),
   ("pen_rep", .jfloat k.pen_rep)]

/-- `load_knob_set` (RWKV7.py lines 132-143): tolerant per-field reads
with module defaults for missing keys. -/
def load_knob_set {V : Type} (i2f : Int → V) (f2i : V → Int) (dflt : Defaults V)
    (d : KnobFile V) : Knobs V :=
  { temp := jGetF i2f d "temp" dflt.TEMP,
    top_p := jGetF i2f d "top_p" dflt.TOP_P,
    top_k := jGetI f2i d "top_k" dflt.TOP_K,
    pen_freq := jGetF i2f d "pen_freq" dflt.PEN_FREQ,
    pen_pres := jGetF i2f d "pen_pres" dflt.PEN_PRES,
    pen_rep := jGetF i2f d "pen_rep" dflt.PEN_REP }

end RWKV7

namespace Mamba

/-- The seven sampling knobs of the Falcon-Mamba runner
(Falcon_Mamba_Instruct.py lines 38-45, including `min_p`). -/
structure Knobs (V : Type) where
  temp : V
  top_p : V
  top_k : Int
  pen_freq : V
  pen_pres : V
  pen_rep : V
  min_p : V
deriving DecidableEq, Repr

/-- Module-level defaults including MIN_P. -/
structure Defaults (V : Type) where
  TEMP : V
  TOP_P : V
  TOP_K : Int
  PEN_FREQ : V
  PEN_PRES : V
  PEN_REP : V
  MIN_P : V

/-- `save_knob_set` (Falcon_Mamba_Instruct.py lines 118-128): `min_p` is
the last key of the dict literal. -/
def save_knob_set {V : Type} (k : Knobs V) : KnobFile V :=
  [("temp", .jfloat k.temp), ("top_p", .jfloat k.top_p), ("top_k", .jint k.top_k),
   ("pen_freq", .jfloat k.pen_freq), ("pen_pres", .jfloat k.pen_pres),
   ("pen_rep", .jfloat k.pen_rep), ("min_p", .jfloat k.min_p)]

/-- `load_knob_set` (Falcon_Mamba_Instruct.py lines 130-141). -/
def load_knob_set {V : Type} (i2f : Int → V) (f2i : V → Int) (dflt : Defaults V)
    (d : KnobFile V) : Knobs V :=
  { temp := jGetF i2f d "temp" dflt.TEMP,
    top_p := jGetF i2f d "top_p" dflt.TOP_P,
    top_k := jGetI f2i d "top_k" dflt.TOP_K,
    pen_freq := jGetF i2f d "pen_freq" dflt.PEN_FREQ,
    pen_pres := jGetF i2f d "pen_pres" dflt.PEN_PRES,
    pen_rep := jGetF i2f d "pen_rep" dflt.PEN_REP,
    min_p := jGetF i2f d "min_p" dflt.MIN_P }

end Mamba

/-! ## The TCP runners (RWKV7.py main, Falcon_Mamba_Instruct.py main) -/

/-- A minimal state dict, `{'blob': bytes, 'n_tokens': int}`. -/
structure Snapshot where
  blob : List Nat
  n_tokens : Int
deriving DecidableEq, Repr

/-- Snapshot files on disk (path ↦ unpickled snapshot). -/
abbrev SnapFS := List (Str × Snapshot)

/-- Profile files on disk (path ↦ JSON object). -/
abbrev SetFS (V : Type) := List (Str × KnobFile V)

/-- `load_state_min` (RWKV7.py lines 113-117): open/unpickle the file and
apply it to the context; a missing file raises before the context is
touched, modelled as `none`. -/
def load_state_min {M : Type} (applyState : M → Snapshot → M) (snapfs : SnapFS)
    (llm : M) (path : Str) : Option (Snapshot × M) :=
  match List.lookup path snapfs with
  | none => none
  | some st => some (st, applyState llm st)

/-- `parts[0].lower() if parts else ""` over `line.split(maxsplit=1)`. -/
def headOf (line : Str) : Str :=
  ((pySplitMax1 line).head?.getD []).map Char.toLower

/-- `parts[1].strip() if len(parts) > 1 else ""`. -/
def argOf (line : Str) : Str :=
  pyStrip (((pySplitMax1 line).get? 1).getD [])

namespace RWKV7

/-- The mutable process state of the RWKV runner's main loop: llama
context, current snapshot, knob variables, and the files it touches. -/
structure Srv (V M : Type) where
  llm : M
  state_obj : Option Snapshot
  knobs : Knobs V
  snapfs : SnapFS
  setfs : SetFS V

/-- Oracles for everything main uses that lives outside this repository:
float parsing/printing (Python `float(arg)` and f-string rendering), JSON
numeric casts, the model primitives, on-disk pickle/JSON sizes, the help
text, the text of a caught exception, and the whole of `turn` (restore +
tokenize + eval + gen_until_stop + capture; the generation loop itself is
embedded separately as `genRun`), returning (reply, new snapshot, new
context). -/
structure Oracle (V M : Type) where
  parseFloat : Str → Option V
  renderV : V → Str
  i2f : Int → V
  f2i : V → Int
  dflt : Defaults V
  applyState : M → Snapshot → M
  capture : M → Snapshot
  pickleSize : Snapshot → Nat
  jsonSize : KnobFile V → Nat
  helpText : Knobs V → Str
  excMsg : Str
  turnFn : M → Option Snapshot → Knobs V → Str → Str × Snapshot × M

/-- The bang-header argument effects (RWKV7.py lines 399-422): try to
load ARG1 as a snapshot and ARG2 as a profile, each failure silently
ignored, and remember ARG3 as the pending post-save path. -/
def bang_args {V M : Type} (O : Oracle V M) (s : Srv V M) (args : List Str) :
    Srv V M × Option Str :=
  let s1 :=
    match args.head? with
    | none => s
    | some a0 =>
        match load_state_min O.applyState s.snapfs s.llm a0 with
        | none => s
        | some stm => { s with llm := stm.2, state_obj := some stm.1 }
  let s2 :=
    match args.get? 1 with
    | none => s1
    | some a1 =>
        match List.lookup a1 s1.setfs with
        | none => s1
        | some d => { s1 with knobs := load_knob_set O.i2f O.f2i O.dflt d }
  (s2, args.get? 2)

/-- What the dispatcher decides to do with a (post-bang) payload. -/
inductive Act (V M : Type) where
  | reply (s : Srv V M) (out : Str)
  | gen (s : Srv V M) (prompt : Str)

/-- The command chain of RWKV7.py main (lines 431-584): split off the
head token, run the matching command, or fall through to the prompt
path. -/
def dispatch {V M : Type} (O : Oracle V M) (s : Srv V M) (line : Str) : Act V M :=
  if headOf line = str "/save" then
    let path := if (argOf line).isEmpty then str "kv.pkl" else argOf line
    let st := match s.state_obj with | some st => st | none => O.capture s.llm
    .reply { s with state_obj := some st, snapfs := (path, st) :: s.snapfs }
      (str "[saved -> " ++ path ++ str " (" ++ natStr (O.pickleSize st) ++ str " bytes)]\n")
  else if headOf line = str "/load" then
    let path := if (argOf line).isEmpty then str "kv.pkl" else argOf line
    match load_state_min O.applyState s.snapfs s.llm path with
    | none => .reply s (str "[load error] " ++ O.excMsg ++ str "\n")
    | some stm =>
        .reply { s with llm := stm.2, state_obj := some stm.1 }
          (str "[loaded <- " ++ path ++ str "]\n")
  else if headOf line = str "/save_set" then
    let path := if (argOf line).isEmpty then str "set.json" else argOf line
    let d := save_knob_set s.knobs
    .reply { s with setfs := (path, d) :: s.setfs }
      (str "[saved set -> " ++ path ++ str " (" ++ natStr (O.jsonSize d) ++ str " bytes)]\n")
  else if headOf line = str "/load_set" then
    let path := if (argOf line).isEmpty then str "set.json" else argOf line
    match List.lookup path s.setfs with
    | none => .reply s (str "[load_set error] " ++ O.excMsg ++ str "\n")
    | some d =>
        .reply { s with knobs := load_knob_set O.i2f O.f2i O.dflt d }
          (str "[loaded set <- " ++ path ++ str "]\n")
  else if headOf line = str "/t" then
    if !(argOf line).isEmpty then
      match O.parseFloat (argOf line) with
      | some v => .reply { s with knobs := { s.knobs with temp := v } } []
      | none => .reply s []
    else .reply s (str "temp = " ++ O.renderV s.knobs.temp)
  else if headOf line = str "/k" then
    if !(argOf line).isEmpty then
      match pyInt? (argOf line) with
      | some v => .reply { s with knobs := { s.knobs with top_k := v } } []
      | none => .reply s []
    else .reply s (str "top_k = " ++ intStr s.knobs.top_k)
  else if headOf line = str "/p" then
    if !(argOf line).isEmpty then
      match O.parseFloat (argOf line) with
      | some v => .reply { s with knobs := { s.knobs with top_p := v } } []
      | none => .reply s []
    else .reply s (str "top_p = " ++ O.renderV s.knobs.top_p)
  else if headOf line = str "/pen_freq" then
    if !(argOf line).isEmpty then
      match O.parseFloat (argOf line) with
      | some v => .reply { s with knobs := { s.knobs with pen_freq := v } } []
      | none => .reply s []
    else .reply s (str "pen_freq = " ++ O.renderV s.knobs.pen_freq)
  else if headOf line = str "/pen_pres" then
    if !(argOf line).isEmpty then
      match O.parseFloat (argOf line) with
      | some v => .reply { s with knobs := { s.knobs with pen_pres := v } } []
      | none => .reply s []
    else .reply s (str "pen_pres = " ++ O.renderV s.knobs.pen_pres)
  else if headOf line = str "/pen_rep" then
    if !(argOf line).isEmpty then
      match O.parseFloat (argOf line) with
      | some v => .reply { s with knobs := { s.knobs with pen_rep := v } } []
      | none => .reply s []
    else .reply s (str "pen_rep = " ++ O.renderV s.knobs.pen_rep)
  else if headOf line = str "/?" then .reply s (O.helpText s.knobs)
  else if (headOf line).head? = some '/' then .reply s []
  else .gen s line

/-- `_maybe_post_save` (RWKV7.py lines 381-392): capture when no
snapshot exists yet, then persist to the pending path, silently. -/
def maybe_post_save {V M : Type} (O : Oracle V M) (s : Srv V M)
    (pending : Option Str) : Srv V M :=
  match pending with
  | none => s
  | some path =>
      let st := match s.state_obj with | some st => st | none => O.capture s.llm
      { s with state_obj := some st, snapfs := (path, st) :: s.snapfs }

/-- The outcome of one connection: final state, reply frame, the prompt
passed to `turn` when generation ran, and whether a bang header was
processed. -/
structure HandleOut (V M : Type) where
  srv : Srv V M
  reply : Str
  genPrompt : Option Str
  bangTaken : Bool

/-- Dispatch plus the prompt path of main (lines 571-591): on the prompt
path run `turn` and then the pending post-save. -/
def handleBody {V M : Type} (O : Oracle V M) (s1 : Srv V M) (pending : Option Str)
    (line : Str) (bang : Bool) : HandleOut V M :=
  match dispatch O s1 line with
  | .reply s2 out => ⟨s2, out, none, bang⟩
  | .gen s2 prompt =>
      let t := O.turnFn s2.llm s2.state_obj s2.knobs prompt
      let s4 := maybe_post_save O { s2 with llm := t.2.2, state_obj := some t.2.1 } pending
      ⟨s4, t.1, some prompt, bang⟩

/-- One connection of the RWKV service loop (RWKV7.py lines 371-591; the
UTF-8 decode with errors ignored is abstracted: `raw` is the decoded
text): strip, bang preprocessing, then dispatch. -/
def handle {V M : Type} (O : Oracle V M) (s0 : Srv V M) (raw : Str) : HandleOut V M :=
  let line0 := pyStrip raw
  if line0.head? = some '!' then
    let args := pySplit (pyStrip ((partitionNl line0).1.drop 1))
    let r := bang_args O s0 args
    handleBody O r.1 r.2 (partitionNl line0).2 true
  else handleBody O s0 none line0 false

end RWKV7

namespace Mamba

/-- The mutable process state of the Mamba runner's main loop; it also
carries the module global MAX_CHARS, which `/max` mutates. -/
structure Srv (V M : Type) where
  llm : M
  state_obj : Option Snapshot
  knobs : Knobs V
  maxChars : Int
  snapfs : SnapFS
  setfs : SetFS V

/-- External oracles of the Mamba runner, as for the RWKV one. -/
structure Oracle (V M : Type) where
  parseFloat : Str → Option V
  renderV : V → Str
  i2f : Int → V
  f2i : V → Int
  dflt : Defaults V
  applyState : M → Snapshot → M
  capture : M → Snapshot
  pickleSize : Snapshot → Nat
  jsonSize : KnobFile V → Nat
  helpText : Knobs V → Str
  excMsg : Str
  turnFn : M → Option Snapshot → Knobs V → Int → Str → Str × Snapshot × M

/-- What the dispatcher decides to do with a (post-bang) payload. -/
inductive Act (V M : Type) where
  | reply (s : Srv V M) (out : Str)
  | gen (s : Srv V M) (prompt : Str)

/-- The command chain of Falcon_Mamba_Instruct.py main (lines 382-530):
identical to the RWKV chain plus `/max` (after `/load`) and `/min_p`
(after `/p`). -/
def dispatch {V M : Type} (O : Oracle V M) (s : Srv V M) (line : Str) : Act V M :=
  if headOf line = str "/save" then
    let path := if (argOf line).isEmpty then str "kv.pkl" else argOf line
    let st := match s.state_obj with | some st => st | none => O.capture s.llm
    .reply { s with state_obj := some st, snapfs := (path, st) :: s.snapfs }
      (str "[saved -> " ++ path ++ str " (" ++ natStr (O.pickleSize st) ++ str " bytes)]\n")
  else if headOf line = str "/load" then
    let path := if (argOf line).isEmpty then str "kv.pkl" else argOf line
    match load_state_min O.applyState s.snapfs s.llm path with
    | none => .reply s (str "[load error] " ++ O.excMsg ++ str "\n")
    | some stm =>
        .reply { s with llm := stm.2, state_obj := some stm.1 }
          (str "[loaded <- " ++ path ++ str "]\n")
  else if headOf line = str "/max" then
    if !(argOf line).isEmpty then
      match pyInt? (argOf line) with
      | some v => .reply { s with maxChars := max 1 v } []
      | none => .reply s []
    else .reply s (str "max = " ++ intStr s.maxChars)
  else if headOf line = str "/save_set" then
    let path := if (argOf line).isEmpty then str "set.json" else argOf line
    let d := save_knob_set s.knobs
    .reply { s with setfs := (path, d) :: s.setfs }
      (str "[saved set -> " ++ path ++ str " (" ++ natStr (O.jsonSize d) ++ str " bytes)]\n")
  else if headOf line = str "/load_set" then
    let path := if (argOf line).isEmpty then str "set.json" else argOf line
    match List.lookup path s.setfs with
    | none => .reply s (str "[load_set error] " ++ O.excMsg ++ str "\n")
    | some d =>
        .reply { s with knobs := load_knob_set O.i2f O.f2i O.dflt d }
          (str "[loaded set <- " ++ path ++ str "]\n")
  else if headOf line = str "/t" then
    if !(argOf line).isEmpty then
      match O.parseFloat (argOf line) with
      | some v => .reply { s with knobs := { s.knobs with temp := v } } []
      | none => .reply s []
    else .reply s (str "temp = " ++ O.renderV s.knobs.temp)
  else if headOf line = str "/k" then
    if !(argOf line).isEmpty then
      match pyInt? (argOf line) with
      | some v => .reply { s with knobs := { s.knobs with top_k := v } } []
      | none => .reply s []
    else .reply s (str "top_k = " ++ intStr s.knobs.top_k)
  else if headOf line = str "/p" then
    if !(argOf line).isEmpty then
      match O.parseFloat (argOf line) with
      | some v => .reply { s with knobs := { s.knobs with top_p := v } } []
      | none => .reply s []
    else .reply s (str "top_p = " ++ O.renderV s.knobs.top_p)
  else if headOf line = str "/min_p" then
    if !(argOf line).isEmpty then
      match O.parseFloat (argOf line) with
      | some v => .reply { s with knobs := { s.knobs with min_p := v } } []
      | none => .reply s []
    else .reply s (str "min_p = " ++ O.renderV s.knobs.min_p)
  else if headOf line = str "/pen_freq" then
    if !(argOf line).isEmpty then
      match O.parseFloat (argOf line) with
      | some v => .reply { s with knobs := { s.knobs with pen_freq := v } } []
      | none => .reply s []
    else .reply s (str "pen_freq = " ++ O.renderV s.knobs.pen_freq)
  else if headOf line = str "/pen_pres" then
    if !(argOf line).isEmpty then
      match O.parseFloat (argOf line) with
      | some v => .reply { s with knobs := { s.knobs with pen_pres := v } } []
      | none => .reply s []
    else .reply s (str "pen_pres = " ++ O.renderV s.knobs.pen_pres)
  else if headOf line = str "/pen_rep" then
    if !(argOf line).isEmpty then
      match O.parseFloat (argOf line) with
      | some v => .reply { s with knobs := { s.knobs with pen_rep := v } } []
      | none => .reply s []
    else .reply s (str "pen_rep = " ++ O.renderV s.knobs.pen_rep)
  else if headOf line = str "/?" then .reply s (O.helpText s.knobs)
  else if (headOf line).head? = some '/' then .reply s []
  else .gen s line

end Mamba

/-- A concrete oracle (floats are integers, the llama context is trivial,
`turn` replies "GEN") used by witnesses and evaluation theorems. -/
def testOracle : RWKV7.Oracle Int Unit :=
  { parseFloat := fun _ => none, renderV := fun _ => [], i2f := id, f2i := id,
    dflt := ⟨0, 0, 0, 0, 0, 0⟩, applyState := fun m _ => m, capture := fun _ => ⟨[], 0⟩,
    pickleSize := fun _ => 0, jsonSize := fun _ => 0, helpText := fun _ => [],
    excMsg := [], turnFn := fun m _ _ _ => (str "GEN", ⟨[], 0⟩, m) }

/-- A concrete fresh server state for the test oracle. -/
def testSrv : RWKV7.Srv Int Unit :=
  { llm := (), state_obj := none, knobs := ⟨1, 2, 3, 4, 5, 6⟩, snapfs := [], setfs := [] }

/-- The Mamba-runner analogue of `testOracle`. -/
def testOracleM : Mamba.Oracle Int Unit :=
  { parseFloat := fun _ => none, renderV := fun _ => [], i2f := id, f2i := id,
    dflt := ⟨0, 0, 0, 0, 0, 0, 0⟩, applyState := fun m _ => m, capture := fun _ => ⟨[], 0⟩,
    pickleSize := fun _ => 0, jsonSize := fun _ => 0, helpText := fun _ => [],
    excMsg := [], turnFn := fun m _ _ _ _ => (str "GEN", ⟨[], 0⟩, m) }

/-- A concrete fresh Mamba server state. -/
def testSrvM : Mamba.Srv Int Unit :=
  { llm := (), state_obj := none, knobs := ⟨1, 2, 3, 4, 5, 6, 7⟩, maxChars := 4096,
    snapfs := [], setfs := [] }

/-- C5: when ARG1 of a bang header names a missing snapshot path, the
load failure is silent and both the llama context and the current
snapshot object are unchanged going into body processing (a successful
ARG2 profile load touches only the knob variables). -/
theorem C5_missing_arg1_state_unchanged {V M : Type} (O : RWKV7.Oracle V M)
    (s : RWKV7.Srv V M) (args : List Str) (p : Str)
    (h1 : args.head? = some p)
    (h2 : List.lookup p s.snapfs = none) :
    (RWKV7.bang_args O s args).1.llm = s.llm ∧
    (RWKV7.bang_args O s args).1.state_obj = s.state_obj := by
  unfold RWKV7.bang_args load_state_min
  simp only [h1, h2]
  cases hg : args.get? 1 with
  | none => exact ⟨rfl, rfl⟩
  | some a1 =>
      dsimp only
      cases hl : List.lookup a1 s.setfs with
      | none => exact ⟨rfl, rfl⟩
      | some d => exact ⟨rfl, rfl⟩

/-- C5 (witness): a concrete bang header whose ARG1 does not exist. -/
theorem C5_missing_arg1_state_unchanged_witness :
    (RWKV7.bang_args testOracle testSrv [str "a.pkl"]).1.llm = testSrv.llm ∧
    (RWKV7.bang_args testOracle testSrv [str "a.pkl"]).1.state_obj = testSrv.state_obj :=
  C5_missing_arg1_state_unchanged testOracle testSrv [str "a.pkl"] (str "a.pkl") rfl rfl

/-- C7: for each numeric set command — /t, /p, /k, /min_p, /pen_freq,
/pen_pres, /pen_rep (the Mamba runner has all seven; the RWKV runner
lacks /min_p) — an argument that fails numeric parsing leaves the entire
server state (in particular the current knob value) unchanged and the
reply is the empty frame. -/
theorem C7_invalid_numeric_set_silent {V M : Type} (OM : Mamba.Oracle V M)
    (OR : RWKV7.Oracle V M) (sM : Mamba.Srv V M) (sR : RWKV7.Srv V M) (line : Str)
    (hne : (argOf line).isEmpty = false)
    (hfm : OM.parseFloat (argOf line) = none)
    (hfr : OR.parseFloat (argOf line) = none)
    (hi : pyInt? (argOf line) = none) :
    (headOf line ∈ [str "/t", str "/p", str "/k", str "/min_p", str "/pen_freq",
        str "/pen_pres", str "/pen_rep"] →
      Mamba.dispatch OM sM line = .reply sM []) ∧
    (headOf line ∈ [str "/t", str "/p", str "/k", str "/pen_freq",
        str "/pen_pres", str "/pen_rep"] →
      RWKV7.dispatch OR sR line = .reply sR []) := by
  constructor
  · intro hmem
    simp only [List.mem_cons, List.mem_singleton, List.not_mem_nil, or_false] at hmem
    rcases hmem with h | h | h | h | h | h | h <;>
      simp [Mamba.dispatch, h, str, hne, hfm, hi]
  · intro hmem
    simp only [List.mem_cons, List.mem_singleton, List.not_mem_nil, or_false] at hmem
    rcases hmem with h | h | h | h | h | h <;>
      simp [RWKV7.dispatch, h, str, hne, hfr, hi]

/-- C7 (witness): "/t abc" with an unparseable argument keeps the state
and replies with an empty frame. -/
theorem C7_invalid_numeric_set_silent_witness :
    RWKV7.dispatch testOracle testSrv (str "/t abc") = .reply testSrv [] := by
  refine (C7_invalid_numeric_set_silent testOracleM testOracle
    testSrvM testSrv (str "/t abc") (by decide) rfl rfl (by decide)).2 ?_
  decide

/-- C9 (code evaluation at the failing input): a frame consisting of a
bang header with an empty body falls through the whole command chain into
the prompt path, so `turn` IS invoked — with the empty prompt — and the
reply is the generated text; the ARG3 post-save then stores the
post-generation snapshot. This contradicts the claim (and the comment at
RWKV7.py line 425, "may be empty; then we'll just do the post-save if
requested") that an empty body performs no generation and replies with a
no-op. -/
theorem C9_empty_bang_body_generates :
    (RWKV7.handle testOracle testSrv (str "!a.pkl b.json c.pkl")).genPrompt = some [] ∧
    (RWKV7.handle testOracle testSrv (str "!a.pkl b.json c.pkl")).reply = str "GEN" ∧
    List.lookup (str "c.pkl")
      (RWKV7.handle testOracle testSrv (str "!a.pkl b.json c.pkl")).srv.snapfs =
      some ⟨[], 0⟩ := by
  refine ⟨by decide, by decide, by decide⟩

/-! ### Strip lemmas for C10 -/

lemma pyStrip_nil_of_all_space {s : Str} (h : ∀ c ∈ s, isPySpace c = true) :
    pyStrip s = [] := by
  have h1 : s.dropWhile isPySpace = [] := List.dropWhile_eq_nil_iff.2 h
  rw [pyStrip, h1]
  rfl

lemma dropWhile_dropWhile (p : Char → Bool) (l : Str) :
    (l.dropWhile p).dropWhile p = l.dropWhile p := by
  induction l with
  | nil => rfl
  | cons c t ih =>
      by_cases hc : p c = true
      · simp only [List.dropWhile_cons, hc, if_true]
        exact ih
      · have hc' : p c = false := by simpa using hc
        simp [List.dropWhile_cons, hc']

lemma stripRight_stable {l : Str} (hl : l.dropWhile isPySpace = l) :
    ((l.reverse.dropWhile isPySpace).reverse).dropWhile isPySpace =
      (l.reverse.dropWhile isPySpace).reverse := by
  have hsuf : l.reverse.dropWhile isPySpace <:+ l.reverse := List.dropWhile_suffix _
  have hpre : (l.reverse.dropWhile isPySpace).reverse <+: l := by
    have h2 := List.reverse_prefix.2 hsuf
    rwa [List.reverse_reverse] at h2
  obtain ⟨r, hr⟩ := hpre
  cases hX : (l.reverse.dropWhile isPySpace).reverse with
  | nil => rfl
  | cons c t =>
      have hlc : l = c :: (t ++ r) := by rw [← hr, hX]; rfl
      have hpc : isPySpace c = false := by
        by_contra hcc
        have hcc' : isPySpace c = true := by simpa using hcc
        rw [hlc, List.dropWhile_cons, hcc', if_pos rfl] at hl
        have h1 := congrArg List.length hl
        have h2 := (List.dropWhile_sublist (l := t ++ r) isPySpace).length_le
        simp only [List.length_cons] at h1
        omega
      simp [List.dropWhile_cons, hpc]

lemma pyStrip_idem (s : Str) : pyStrip (pyStrip s) = pyStrip s := by
  have hstab : (pyStrip s).dropWhile isPySpace = pyStrip s :=
    stripRight_stable (dropWhile_dropWhile isPySpace s)
  show (((pyStrip s).dropWhile isPySpace).reverse.dropWhile isPySpace).reverse = pyStrip s
  rw [hstab, pyStrip, List.reverse_reverse, dropWhile_dropWhile]

lemma rwkv_dispatch_gen_prompt {V M : Type} {O : RWKV7.Oracle V M} {s s2 : RWKV7.Srv V M}
    {line p : Str} (h : RWKV7.dispatch O s line = .gen s2 p) : p = line := by
  unfold RWKV7.dispatch at h
  by_cases h1 : headOf line = str "/save"
  · rw [if_pos h1] at h
    try dsimp only at h
    repeat' split at h
    all_goals simp at h
  rw [if_neg h1] at h
  by_cases h2 : headOf line = str "/load"
  · rw [if_pos h2] at h
    try dsimp only at h
    repeat' split at h
    all_goals simp at h
  rw [if_neg h2] at h
  by_cases h3 : headOf line = str "/save_set"
  · rw [if_pos h3] at h
    try dsimp only at h
    repeat' split at h
    all_goals simp at h
  rw [if_neg h3] at h
  by_cases h4 : headOf line = str "/load_set"
  · rw [if_pos h4] at h
    try dsimp only at h
    repeat' split at h
    all_goals simp at h
  rw [if_neg h4] at h
  by_cases h5 : headOf line = str "/t"
  · rw [if_pos h5] at h
    try dsimp only at h
    repeat' split at h
    all_goals simp at h
  rw [if_neg h5] at h
  by_cases h6 : headOf line = str "/k"
  · rw [if_pos h6] at h
    try dsimp only at h
    repeat' split at h
    all_goals simp at h
  rw [if_neg h6] at h
  by_cases h7 : headOf line = str "/p"
  · rw [if_pos h7] at h
    try dsimp only at h
    repeat' split at h
    all_goals simp at h
  rw [if_neg h7] at h
  by_cases h8 : headOf line = str "/pen_freq"
  · rw [if_pos h8] at h
    try dsimp only at h
    repeat' split at h
    all_goals simp at h
  rw [if_neg h8] at h
  by_cases h9 : headOf line = str "/pen_pres"
  · rw [if_pos h9] at h
    try dsimp only at h
    repeat' split at h
    all_goals simp at h
  rw [if_neg h9] at h
  by_cases h10 : headOf line = str "/pen_rep"
  · rw [if_pos h10] at h
    try dsimp only at h
    repeat' split at h
    all_goals simp at h
  rw [if_neg h10] at h
  by_cases h11 : headOf line = str "/?"
  · rw [if_pos h11] at h
    try dsimp only at h
    repeat' split at h
    all_goals simp at h
  rw [if_neg h11] at h
  by_cases h12 : (headOf line).head? = some '/'
  · rw [if_pos h12] at h
    try dsimp only at h
    repeat' split at h
    all_goals simp at h
  rw [if_neg h12] at h
  simp only [RWKV7.Act.gen.injEq] at h
  exact h.2.symm

lemma rwkv_handleBody_bangTaken {V M : Type} (O : RWKV7.Oracle V M) (s : RWKV7.Srv V M)
    (pending : Option Str) (line : Str) (b : Bool) :
    (RWKV7.handleBody O s pending line b).bangTaken = b := by
  unfold RWKV7.handleBody
  cases RWKV7.dispatch O s line <;> rfl

lemma rwkv_handleBody_genPrompt {V M : Type} {O : RWKV7.Oracle V M} {s : RWKV7.Srv V M}
    {pending : Option Str} {line : Str} {b : Bool} {p : Str}
    (h : (RWKV7.handleBody O s pending line b).genPrompt = some p) : p = line := by
  unfold RWKV7.handleBody at h
  cases hd : RWKV7.dispatch O s line with
  | reply s2 out => rw [hd] at h; simp at h
  | gen s2 pr =>
      rw [hd] at h
      simp only [Option.some.injEq] at h
      rw [← h]
      exact rwkv_dispatch_gen_prompt hd

/-- C10 (counterexample): the service strips only the whole frame; the
body of a bang header may keep leading whitespace, so the prompt "  hi"
— with surrounding whitespace — reaches `turn`, refuting the claim that
a prompt never reaches the model with surrounding whitespace. -/
theorem C10_counterexample :
    (RWKV7.handle testOracle testSrv (str "!x\n  hi")).genPrompt = some (str "  hi") ∧
    pyStrip (str "  hi") ≠ str "  hi" := by
  refine ⟨by decide, by decide⟩

/-- C10 (amended): the service strips leading and trailing whitespace
from the decoded frame before dispatch, so a whitespace-only frame
becomes the empty payload, the stripped payload is strip-stable, a frame
whose first non-whitespace character is '!' is treated as having a bang
header, and — for non-bang frames only — any prompt that reaches `turn`
is exactly the stripped payload (a bang body may retain leading
whitespace, though never trailing whitespace). -/
theorem C10_strip_before_dispatch {V M : Type} (O : RWKV7.Oracle V M)
    (s : RWKV7.Srv V M) (raw : Str) :
    ((∀ c ∈ raw, isPySpace c = true) → pyStrip raw = []) ∧
    pyStrip (pyStrip raw) = pyStrip raw ∧
    ((RWKV7.handle O s raw).bangTaken = true ↔ (pyStrip raw).head? = some '!') ∧
    ((pyStrip raw).head? ≠ some '!' →
      ∀ p, (RWKV7.handle O s raw).genPrompt = some p → p = pyStrip raw) := by
  refine ⟨pyStrip_nil_of_all_space, pyStrip_idem raw, ?_, ?_⟩
  · unfold RWKV7.handle
    by_cases hb : (pyStrip raw).head? = some '!'
    · rw [if_pos hb, rwkv_handleBody_bangTaken]
      simp [hb]
    · rw [if_neg hb, rwkv_handleBody_bangTaken]
      simp [hb]
  · intro hb p hp
    unfold RWKV7.handle at hp
    rw [if_neg hb] at hp
    exact rwkv_handleBody_genPrompt hp

/-- C10 (witness): the amended theorem applied to a whitespace-only
frame and to a concrete non-bang prompt. -/
theorem C10_strip_before_dispatch_witness :
    pyStrip (str "  \n ") = [] ∧
    ((RWKV7.handle testOracle testSrv (str " hello ")).genPrompt = some (str "hello") →
      str "hello" = pyStrip (str " hello ")) :=
  ⟨(C10_strip_before_dispatch testOracle testSrv (str "  \n ")).1 (by decide),
   fun hp => (C10_strip_before_dispatch testOracle testSrv (str " hello ")).2.2.2
     (by decide) (str "hello") hp⟩

/-- C6 (counterexample): the RWKV runner's profile JSON has six keys
named temp, top_p, top_k, pen_freq, pen_pres, pen_rep — not the seven
field names of spec §3 (temperature, top_p, top_k, min_p,
frequency_penalty, presence_penalty, repeat_penalty). -/
theorem C6_counterexample :
    (RWKV7.save_knob_set (V := Int) ⟨1, 2, 3, 4, 5, 6⟩).map Prod.fst ≠
      ["temperature", "top_p", "top_k", "min_p", "frequency_penalty",
       "presence_penalty", "repeat_penalty"] ∧
    ((RWKV7.save_knob_set (V := Int) ⟨1, 2, 3, 4, 5, 6⟩).map Prod.fst).length = 6 := by
  constructor
  · decide
  · rfl

/-- C6 (amended): the RWKV runner writes exactly the keys temp, top_p,
top_k, pen_freq, pen_pres, pen_rep; the Mamba runner writes those plus
min_p; on load every missing field falls back to its module default. -/
theorem C6_knob_json_roundtrip {V : Type} (i2f : Int → V) (f2i : V → Int)
    (dR : RWKV7.Defaults V) (dM : Mamba.Defaults V)
    (kR : RWKV7.Knobs V) (kM : Mamba.Knobs V) :
    (RWKV7.save_knob_set kR).map Prod.fst =
      ["temp", "top_p", "top_k", "pen_freq", "pen_pres", "pen_rep"] ∧
    (Mamba.save_knob_set kM).map Prod.fst =
      ["temp", "top_p", "top_k", "pen_freq", "pen_pres", "pen_rep", "min_p"] ∧
    RWKV7.load_knob_set i2f f2i dR [] =
      { temp := dR.TEMP, top_p := dR.TOP_P, top_k := dR.TOP_K,
        pen_freq := dR.PEN_FREQ, pen_pres := dR.PEN_PRES, pen_rep := dR.PEN_REP } ∧
    Mamba.load_knob_set i2f f2i dM [] =
      { temp := dM.TEMP, top_p := dM.TOP_P, top_k := dM.TOP_K,
        pen_freq := dM.PEN_FREQ, pen_pres := dM.PEN_PRES, pen_rep := dM.PEN_REP,
        min_p := dM.MIN_P } ∧
    (∀ d : KnobFile V, List.lookup "temp" d = none →
        (RWKV7.load_knob_set i2f f2i dR d).temp = dR.TEMP) ∧
    (∀ d : KnobFile V, List.lookup "min_p" d = none →
        (Mamba.load_knob_set i2f f2i dM d).min_p = dM.MIN_P) := by
  refine ⟨rfl, rfl, rfl, rfl, ?_, ?_⟩
  · intro d h
    simp [RWKV7.load_knob_set, jGetF, h]
  · intro d h
    simp [Mamba.load_knob_set, jGetF, h]

/-- C6 (witness): the defaults clause of the roundtrip theorem applied to
a concrete profile file missing both temp and min_p. -/
theorem C6_knob_json_roundtrip_witness :
    (RWKV7.load_knob_set (V := Int) id id ⟨7, 8, 9, 10, 11, 12⟩
        [("top_p", .jint 5)]).temp = 7 ∧
    (Mamba.load_knob_set (V := Int) id id ⟨7, 8, 9, 10, 11, 12, 13⟩
        [("top_p", .jint 5)]).min_p = 13 :=
  ⟨(C6_knob_json_roundtrip (V := Int) id id ⟨7, 8, 9, 10, 11, 12⟩
      ⟨7, 8, 9, 10, 11, 12, 13⟩ ⟨0, 0, 0, 0, 0, 0⟩ ⟨0, 0, 0, 0, 0, 0, 0⟩).2.2.2.2.1
      [("top_p", .jint 5)] (by decide),
   (C6_knob_json_roundtrip (V := Int) id id ⟨7, 8, 9, 10, 11, 12⟩
      ⟨7, 8, 9, 10, 11, 12, 13⟩ ⟨0, 0, 0, 0, 0, 0⟩ ⟨0, 0, 0, 0, 0, 0, 0⟩).2.2.2.2.2
      [("top_p", .jint 5)] (by decide)⟩

end SSM
